import Mathlib

/-!
Verification of the client-side data-derivation and navigation-state pipeline
of a movie-catalog browser (ListPage / GalleryPage / DetailPage).

The embedding is shallow and executable: each React event handler or derived
value becomes a pure Lean function over explicit state records; machine
numbers become `Int` / `ℚ`; the asynchronous fetch lifecycle becomes an event
list folded over the state.  `Array.prototype.sort` is modelled by the stable
`List.mergeSort`; for comparator-consistent inputs this is the unique result
mandated by ECMAScript, and for inconsistent comparators (which ECMAScript
leaves implementation-defined) it fixes one legitimate stable sort.
-/

namespace MovieCatalog

/-! ### Kernel-evaluable algorithm infrastructure

`List.mergeSort` and several `String` primitives are defined by well-founded
recursion and do not reduce inside the kernel, so concrete test cases could
not be settled by `decide`.  The fuel-indexed versions below are structurally
recursive; they are proved equal to the library functions further down.
-/

/-- Structural version of `List.merge`; fully applied fuel makes it reduce in
the kernel.  With fuel at least the sum of the lengths it agrees with
`List.merge`. -/
def mergeFuel {α : Type} (le : α → α → Bool) : Nat → List α → List α → List α
  | 0, xs, ys => xs ++ ys
  | _+1, [], ys => ys
  | _+1, x :: xs, [] => x :: xs
  | fuel+1, x :: xs, y :: ys =>
    if le x y then x :: mergeFuel le fuel xs (y :: ys)
    else y :: mergeFuel le fuel (x :: xs) ys

/-- Structural version of `List.mergeSort` (same contiguous halving, hence the
same stable result); with fuel at least the length it agrees with
`List.mergeSort`. -/
def sortFuel {α : Type} (le : α → α → Bool) : Nat → List α → List α
  | 0, l => l
  | _+1, [] => []
  | _+1, [a] => [a]
  | fuel+1, a :: b :: xs =>
    mergeFuel le (xs.length + 2)
      (sortFuel le fuel ((a :: b :: xs).take ((xs.length + 3) / 2)))
      (sortFuel le fuel ((a :: b :: xs).drop ((xs.length + 3) / 2)))

/-- Three-way lexicographic comparison of char lists, the total order we use
to model the environment-defined collation of
`String.prototype.localeCompare`. -/
def cmpChars : List Char → List Char → Ordering
  | [], [] => .eq
  | [], _ :: _ => .lt
  | _ :: _, [] => .gt
  | a :: as, b :: bs => if a < b then .lt else if b < a then .gt else cmpChars as bs

/-- Value of an all-digit char list, `none` if any char is not a digit. -/
def digitsToNat (cs : List Char) : Option Nat :=
  if cs.all Char.isDigit then
    some (cs.foldl (fun acc c => acc * 10 + (c.toNat - 48)) 0)
  else none

/-- Decimal digits of `n` (fuel-driven so that it reduces in the kernel). -/
def natToCharsAux : Nat → Nat → List Char → List Char
  | 0, _, acc => acc
  | fuel+1, n, acc =>
    if n < 10 then Char.ofNat (48 + n) :: acc
    else natToCharsAux fuel (n / 10) (Char.ofNat (48 + n % 10) :: acc)

/-- Decimal representation of a natural number as chars. -/
def natToChars (n : Nat) : List Char := natToCharsAux (n + 1) n []

/-- Decimal representation of an integer as chars, with a leading minus
sign for negatives. -/
def intToChars (i : Int) : List Char :=
  if i < 0 then '-' :: natToChars i.natAbs else natToChars i.toNat

/-- Interleave a separator char between chunks. -/
def intercalateChars (sep : Char) : List (List Char) → List Char
  | [] => []
  | [x] => x
  | x :: y :: xs => x ++ sep :: intercalateChars sep (y :: xs)

/-- Split off the leading run of digit chars. -/
def spanDigits (cs : List Char) : List Char × List Char :=
  (cs.takeWhile Char.isDigit, cs.dropWhile Char.isDigit)

/-- Read one (optionally negated) decimal integer from the front of a char
list, returning the value and the remaining chars. -/
def parseIntChars (cs : List Char) : Option (Int × List Char) :=
  match cs with
  | '-' :: rest =>
    let (ds, rest2) := spanDigits rest
    match digitsToNat ds with
    | some n => if ds.isEmpty then none else some (-(n : Int), rest2)
    | none => none
  | _ =>
    let (ds, rest2) := spanDigits cs
    match digitsToNat ds with
    | some n => if ds.isEmpty then none else some ((n : Int), rest2)
    | none => none

/-- Comma-separated integers terminated by a closing bracket, consuming the
whole input (fuel-driven recursion over the remaining chars). -/
def parseItems : Nat → List Char → Option (List Int)
  | 0, _ => none
  | fuel+1, cs =>
    match parseIntChars cs with
    | some (v, [']']) => some [v]
    | some (v, ',' :: more) => (parseItems fuel more).map (v :: ·)
    | _ => none

/-- Models `String.prototype.trim`: strip whitespace from both ends. -/
def jsTrim (s : String) : String :=
  String.mk (((s.data.dropWhile Char.isWhitespace).reverse.dropWhile
    Char.isWhitespace).reverse)

/-! ### Data model (ListPage.tsx / GalleryPage.tsx interfaces)

`Movie` mirrors the `Movie` interface: `vote_average` is a TMDB rating (one
decimal digit, range 0–10), modelled as `ℚ` — comparator signs over such
values coincide with IEEE float comparison, which is exact here.
-/

structure Movie where
  id : Int
  title : String
  poster_path : Option String
  vote_average : ℚ
  genre_ids : List Int
  release_date : String
deriving DecidableEq

/-- The `Genre` interface: `{id, name}`. -/
structure Genre where
  id : Int
  name : String
deriving DecidableEq

/-- The parts of the `MovieListResponse` interface consumed by `fetchMovies`.
Both handlers guard with `?? defaults`, so the fields are `Option`s to model
a server that omits them. -/
structure MovieListResponse where
  results : Option (List Movie)
  total_pages : Option Int
deriving DecidableEq

/-- Spec §3 `FilterCriteria`: selected genre ids (AND semantics) and the
minimum-rating threshold (GalleryPage slider, defaults to 0). -/
structure FilterCriteria where
  selectedGenreIds : List Int
  minimumRating : ℚ

/-! ### Filter/Sort Engine (ListPage.tsx `filteredAndSortedMovies`,
GalleryPage.tsx `filteredMovies`) -/

/-- Models `new Date(s).getTime()` restricted to the strings the catalog
service supplies for `release_date`: a full ISO `YYYY-MM-DD` date with
in-range fields parses to a strictly monotone integer key
`y*10000 + m*100 + d`; everything else — in particular the empty string —
is an invalid `Date`, i.e. a `NaN` timestamp, modelled as `none`.  Only the
sign of comparator differences is observable, so any strictly monotone
encoding of the timestamp is faithful. -/
def parseDateKey (s : String) : Option Int :=
  match s.data with
  | [y1, y2, y3, y4, h1, m1, m2, h2, d1, d2] =>
    if h1 = '-' ∧ h2 = '-' then
      match digitsToNat [y1, y2, y3, y4], digitsToNat [m1, m2], digitsToNat [d1, d2] with
      | some yn, some mn, some dn =>
        if 1 ≤ mn ∧ mn ≤ 12 ∧ 1 ≤ dn ∧ dn ≤ 31 then
          some ((yn : Int) * 10000 + (mn : Int) * 100 + (dn : Int))
        else none
      | _, _, _ => none
    else none
  | _ => none

/-- Models `a.localeCompare(b)`: a negative / zero / positive number under a
total order on strings.  The exact collation is environment-defined; the
model uses char-wise lexicographic order, which has the same algebraic
properties (totality, antisymmetry, transitivity). -/
def localeCompare (a b : String) : Int :=
  match cmpChars a.data b.data with
  | .lt => -1
  | .gt => 1
  | .eq => 0

/-- The `new Date(a.release_date).getTime() - new Date(b.release_date).getTime()`
comparator value.  When either timestamp is `NaN` the subtraction is `NaN`,
which the ECMAScript `SortCompare` operation coerces to `+0`; the model
therefore returns `0` whenever either date fails to parse. -/
def dateCompare (a b : Movie) : ℚ :=
  match parseDateKey a.release_date, parseDateKey b.release_date with
  | some ka, some kb => ((ka - kb : Int) : ℚ)
  | _, _ => 0

/-- The comparator of `filteredAndSortedMovies` (ListPage.tsx lines 162-179):
a `switch` on the sort option string, with the default case (including
`popularity.desc`) falling back to descending rating. -/
def movieCompare (sortOption : String) (a b : Movie) : ℚ :=
  if sortOption = "title.asc" then localeCompare a.title b.title
  else if sortOption = "title.desc" then localeCompare b.title a.title
  else if sortOption = "rating.desc" then b.vote_average - a.vote_average
  else if sortOption = "rating.asc" then a.vote_average - b.vote_average
  else if sortOption = "release_date.desc" then dateCompare b a
  else if sortOption = "release_date.asc" then dateCompare a b
  else b.vote_average - a.vote_average

/-- Models `result.sort(cmp)` on a JavaScript array: a stable sort in which
`cmp a b ≤ 0` lets `a` stay before `b`.  For comparator-consistent inputs
this is the unique stable order required by ECMAScript 2019+; modelled by the
stable `List.mergeSort`. -/
def jsSort (cmp : Movie → Movie → ℚ) (l : List Movie) : List Movie :=
  l.mergeSort (fun a b => decide (cmp a b ≤ 0))

/-- GalleryPage.tsx lines 170-177 `filteredMovies`: keep a movie iff no genre
is selected or every selected genre id occurs in `genre_ids`, and its rating
meets the minimum. -/
def filteredMovies (movies : List Movie) (selectedGenres : List Int)
    (minimumRating : ℚ) : List Movie :=
  movies.filter (fun movie =>
    let matchesGenres := decide (selectedGenres.length = 0)
      || selectedGenres.all (fun genreId => movie.genre_ids.contains genreId)
    let matchesRating := decide (movie.vote_average ≥ minimumRating)
    matchesGenres && matchesRating)

/-- ListPage.tsx lines 153-182 `filteredAndSortedMovies`: copy the raw list,
filter by the selected genres (AND semantics) when any are selected, then
sort with `movieCompare`. -/
def filteredAndSortedMovies (movies : List Movie) (selectedGenres : List Int)
    (sortOption : String) : List Movie :=
  let result := if selectedGenres.length > 0 then
      movies.filter (fun movie =>
        selectedGenres.all (fun genreId => movie.genre_ids.contains genreId))
    else movies
  jsSort (movieCompare sortOption) result

/-- Spec §4.1 `derive(rawItems, criteria, sortKey)`, assembled from the two
implementations the spec unifies: the full filter predicate of GalleryPage
(ListPage omits the rating threshold, i.e. fixes the default
`minimumRating = 0`) followed by the comparator sort of ListPage
(GalleryPage performs no sort). -/
def derive (rawItems : List Movie) (criteria : FilterCriteria)
    (sortOption : String) : List Movie :=
  jsSort (movieCompare sortOption)
    (filteredMovies rawItems criteria.selectedGenreIds criteria.minimumRating)

/-! ### Detail Navigation Stepper (DetailPage.tsx `handleNavigation`,
and the identical App.tsx DetailPage-variant lines 115-133) -/

/-- The two stepping directions of `handleNavigation`. -/
inductive Direction where
  | prev
  | next

/-- Models `movieIds.indexOf(currentId)`: the first index of the value, or
`-1` when absent. -/
def jsIndexOf (l : List Int) (a : Int) : Int :=
  if a ∈ l then (l.indexOf a : Int) else -1

/-- DetailPage.tsx lines 59-74 `handleNavigation`: no-op (`none`) when the
sequence is empty or the current id is not found; otherwise step to the id at
`(currentIndex ± 1) mod length` with circular wraparound.  The guard on a
missing `movieId` route parameter is outside this model — the current id is
given directly. -/
def handleNavigation (currentId : Int) (movieIds : List Int)
    (direction : Direction) : Option Int :=
  if movieIds.length = 0 then none
  else
    let currentIndex : Int := jsIndexOf movieIds currentId
    if currentIndex = -1 then none
    else
      let nextIndex : Int :=
        match direction with
        | .next => (currentIndex + 1) % (movieIds.length : Int)
        | .prev => (currentIndex - 1 + movieIds.length) % (movieIds.length : Int)
      movieIds[nextIndex.toNat]?

/-! ### Navigation State Bridge (App.tsx DetailPage variant lines 56-84)

The durable per-session store is the single `sessionStorage` slot under
`tmdb.movieIds`, modelled as `Option String` (`none` = `getItem` returned
`null`).  `JSON.stringify` / `JSON.parse ∘ Array.isArray` on integer arrays
are modelled by `jsonStringifyIds` / `parseIntArray`; `parseIntArray`
recognises exactly the canonical output format of `JSON.stringify` on an
integer array, and returns `none` both for malformed JSON (where
`JSON.parse` throws into the `catch`) and for other shapes — the code maps
both cases to the empty sequence.  All bridge operations are total: neither
read nor write failures escape. -/

/-- Models `JSON.parse` on a stored slot, specialised to integer-array
literals such as `"[1,2,3]"`; `none` covers both a parse error and a
non-array value. -/
def parseIntArray (s : String) : Option (List Int) :=
  match s.data with
  | '[' :: rest =>
    match rest with
    | [']'] => some []
    | _ => parseItems rest.length rest
  | _ => none

/-- Models `JSON.stringify` on an integer array. -/
def jsonStringifyIds (ids : List Int) : String :=
  String.mk ('[' :: intercalateChars ',' (ids.map intToChars) ++ [']'])

/-- App.tsx lines 56-67, the `useState` initializer for `movieIds`: `[]` when
the slot is absent, the parsed array when the stored string parses to an
array, and `[]` (via `Array.isArray` or the `catch`) otherwise. -/
def initMovieIds (stored : Option String) : List Int :=
  match stored with
  | none => []
  | some s =>
    match parseIntArray s with
    | some parsed => parsed
    | none => []

/-- Spec §4.4 `resolve()` at detail-view mount: the initializer reads the
durable slot, then the `location.state` effect (App.tsx lines 69-74)
overwrites with the navigation-action sequence when it is present and
non-empty. -/
def resolveMovieIds (navStateIds : Option (List Int))
    (stored : Option String) : List Int :=
  match navStateIds with
  | some ids => if ids.length > 0 then ids else initMovieIds stored
  | none => initMovieIds stored

/-- App.tsx lines 76-84, the `sessionStorage` write effect: a non-empty
captured sequence is JSON-encoded into the slot; a write failure
(`writeOk = false`, e.g. quota) is swallowed by the empty `catch`, leaving
the slot as it was; an empty sequence writes nothing. -/
def captureStore (movieIds : List Int) (writeOk : Bool)
    (stored : Option String) : Option String :=
  if movieIds.length > 0 then
    if writeOk then some (jsonStringifyIds movieIds) else stored
  else stored

/-! ### Search/Pagination Controller (ListPage.tsx)

The `useState` cells of `ListPage` form one state record; `console.error`
calls are modelled by a counter so that the error record of a failed fetch is
part of the state.  Each event handler and each fetch completion is a total
function on the state — no failure escapes the controller. -/

structure ListState where
  movies : List Movie
  query : String
  isLoading : Bool
  genres : List Genre
  selectedGenres : List Int
  sortOption : String
  isFilterOpen : Bool
  currentPage : Int
  totalPages : Int
  consoleErrorCount : Nat
deriving DecidableEq

/-- The initial `useState` values of ListPage.tsx lines 37-45. -/
def initialListState : ListState :=
  { movies := []
    query := ""
    isLoading := true
    genres := []
    selectedGenres := []
    sortOption := "popularity.desc"
    isFilterOpen := false
    currentPage := 1
    totalPages := 1
    consoleErrorCount := 0 }

/-- The request `fetchMovies` dispatches (ListPage.tsx lines 62-73). -/
inductive ApiRequest where
  | search (query : String) (page : Int)
  | popular (page : Int)
deriving DecidableEq

/-- ListPage.tsx lines 62-73: trim the search term; search with the trimmed
query when its length exceeds 1, otherwise fetch the popular list. -/
def fetchRequest (page : Int) (searchTerm : String) : ApiRequest :=
  let trimmedQuery := jsTrim searchTerm
  if trimmedQuery.length > 1 then ApiRequest.search trimmedQuery page
  else ApiRequest.popular page

/-- `setIsLoading(true)` at the start of `fetchMovies`. -/
def beginFetch (s : ListState) : ListState := { s with isLoading := true }

/-- The success path of `fetchMovies` (lines 75-76, 82):
`setMovies(data.results ?? [])`,
`setTotalPages(Math.max(1, data.total_pages ?? 1))`, loading cleared in the
`finally`. -/
def applyFetchSuccess (s : ListState) (data : MovieListResponse) : ListState :=
  { s with
    movies := data.results.getD []
    totalPages := max 1 (data.total_pages.getD 1)
    isLoading := false }

/-- The catch path of `fetchMovies` (lines 77-82): log the error, clear the
list, reset total pages to 1, loading cleared in the `finally`.  The `catch`
absorbs the rejection — nothing is re-thrown to the caller. -/
def applyFetchFailure (s : ListState) : ListState :=
  { s with
    movies := []
    totalPages := 1
    consoleErrorCount := s.consoleErrorCount + 1
    isLoading := false }

/-- ListPage.tsx lines 122-126 `handleSearch`: store the new query text and
reset the page to 1. -/
def handleSearch (s : ListState) (nextQuery : String) : ListState :=
  { s with query := nextQuery, currentPage := 1 }

/-- ListPage.tsx lines 128-134 `handleGenreClick`: toggle a genre id in the
selection. -/
def handleGenreClick (s : ListState) (genreId : Int) : ListState :=
  { s with selectedGenres :=
      if s.selectedGenres.contains genreId then
        s.selectedGenres.filter (fun id => id ≠ genreId)
      else s.selectedGenres ++ [genreId] }

/-- ListPage.tsx lines 136-138 `toggleFilterPanel`. -/
def toggleFilterPanel (s : ListState) : ListState :=
  { s with isFilterOpen := !s.isFilterOpen }

/-- ListPage.tsx lines 140-142 `clearFilters`. -/
def clearFilters (s : ListState) : ListState :=
  { s with selectedGenres := [] }

/-- ListPage.tsx lines 144-151 `handleGoHome` (the focus call is outside the
state model). -/
def handleGoHome (s : ListState) : ListState :=
  { s with
    query := ""
    selectedGenres := []
    sortOption := "popularity.desc"
    isFilterOpen := false
    currentPage := 1 }

/-- The sort `select` handler (line 309): `setSortOption(value)`. -/
def setSortOption (s : ListState) (sortOption : String) : ListState :=
  { s with sortOption := sortOption }

/-- The genre fetch success (lines 54-55): `setGenres(fetchedGenres)`. -/
def setGenres (s : ListState) (fetchedGenres : List Genre) : ListState :=
  { s with genres := fetchedGenres }

/-- The genre fetch catch (lines 56-59): log and `setGenres([])`. -/
def genresFetchFailed (s : ListState) : ListState :=
  { s with genres := [], consoleErrorCount := s.consoleErrorCount + 1 }

/-- ListPage.tsx lines 193-195 `goToPreviousPage`:
`setCurrentPage(Math.max(1, prev - 1))`. -/
def goToPreviousPage (s : ListState) : ListState :=
  { s with currentPage := max 1 (s.currentPage - 1) }

/-- ListPage.tsx lines 197-199 `goToNextPage`:
`setCurrentPage(prev < totalPages ? prev + 1 : prev)`. -/
def goToNextPage (s : ListState) : ListState :=
  { s with currentPage :=
      if s.currentPage < s.totalPages then s.currentPage + 1 else s.currentPage }

/-- One observable controller event: a user interaction, the issuing of a
fetch, or the arrival of a fetch outcome.  Fetch completions are separate
events precisely because responses of concurrently issued fetches interleave
with everything else on the single JS thread. -/
inductive ListEvent where
  | search (nextQuery : String)
  | genreClick (genreId : Int)
  | toggleFilter
  | clearFilterSelection
  | goHome
  | setSort (sortOption : String)
  | genresLoaded (fetchedGenres : List Genre)
  | genresFailed
  | fetchStart
  | fetchSuccess (data : MovieListResponse)
  | fetchFailure
  | prevPage
  | nextPage

/-- Dispatch one event to the corresponding handler.  A `fetchSuccess` or
`fetchFailure` applies its state updates unconditionally: `fetchMovies`
(lines 62-84) keeps no request key and never checks whether a newer fetch has
been issued since. -/
def applyEvent (s : ListState) : ListEvent → ListState
  | .search q => handleSearch s q
  | .genreClick g => handleGenreClick s g
  | .toggleFilter => toggleFilterPanel s
  | .clearFilterSelection => clearFilters s
  | .goHome => handleGoHome s
  | .setSort o => setSortOption s o
  | .genresLoaded gs => setGenres s gs
  | .genresFailed => genresFetchFailed s
  | .fetchStart => beginFetch s
  | .fetchSuccess d => applyFetchSuccess s d
  | .fetchFailure => applyFetchFailure s
  | .prevPage => goToPreviousPage s
  | .nextPage => goToNextPage s

/-- Fold a sequence of interleaved events over the controller state. -/
def runEvents (s : ListState) (events : List ListEvent) : ListState :=
  events.foldl applyEvent s

/-! ### Concrete instances used in counterexamples and witnesses -/

/-- A movie whose release date parses. -/
def parseableMovie : Movie :=
  { id := 1, title := "Alpha", poster_path := none, vote_average := 5,
    genre_ids := [], release_date := "2020-01-05" }

/-- A movie with the empty release date (an invalid `Date`, `NaN` getTime). -/
def unparseableMovie : Movie :=
  { id := 2, title := "Beta", poster_path := none, vote_average := 5,
    genre_ids := [], release_date := "" }

/-- Helper for date-sort counterexamples: id plus release date. -/
def dateMovie (idv : Int) (d : String) : Movie :=
  { id := idv, title := "Title", poster_path := none, vote_average := 5,
    genre_ids := [], release_date := d }

/-- Six movies on which release-date-ascending derivation is not idempotent:
one later date, four equal earlier dates, one unparseable date. -/
def idemInput : List Movie :=
  [dateMovie 1 "2000-01-02", dateMovie 2 "2000-01-01", dateMovie 3 "2000-01-01",
   dateMovie 4 "2000-01-01", dateMovie 5 "", dateMovie 6 "2000-01-01"]

/-- The page-1 payload of the race scenario. -/
def pageOneResponse : MovieListResponse :=
  { results := some [dateMovie 11 "2001-01-01"], total_pages := some 7 }

/-- The page-2 payload of the race scenario. -/
def pageTwoResponse : MovieListResponse :=
  { results := some [dateMovie 22 "2002-01-01"], total_pages := some 9 }

/-! ### Equivalence of the fuel-driven evaluators with the library functions -/

theorem mergeFuel_eq {α : Type} (le : α → α → Bool) (fuel : Nat) :
    ∀ (xs ys : List α), xs.length + ys.length ≤ fuel →
      mergeFuel le fuel xs ys = List.merge xs ys le := by
  induction fuel with
  | zero =>
    intro xs ys h
    have hx : xs = [] := by cases xs <;> simp_all
    have hy : ys = [] := by cases ys <;> simp_all
    subst hx; subst hy; simp [mergeFuel]
  | succ n ih =>
    intro xs ys h
    match xs, ys with
    | [], ys => simp [mergeFuel]
    | x :: xs, [] => simp [mergeFuel]
    | x :: xs, y :: ys =>
      simp only [List.length_cons] at h
      simp only [mergeFuel, List.merge]
      split
      · rw [ih]; simp; omega
      · rw [ih]; simp; omega

theorem sortFuel_eq {α : Type} (le : α → α → Bool) (fuel : Nat) :
    ∀ (l : List α), l.length ≤ fuel → sortFuel le fuel l = l.mergeSort le := by
  induction fuel with
  | zero =>
    intro l h
    have : l = [] := by cases l <;> simp_all
    subst this; simp [sortFuel]
  | succ n ih =>
    intro l h
    match l with
    | [] => simp [sortFuel]
    | [a] => simp [sortFuel]
    | a :: b :: xs =>
      rw [List.mergeSort]
      simp only [sortFuel, List.splitInTwo_fst, List.splitInTwo_snd]
      simp only [List.length_cons] at h
      have h1 : ((a :: b :: xs).take ((xs.length + 3) / 2)).length ≤ n := by
        simp [List.length_take]; omega
      have h2 : ((a :: b :: xs).drop ((xs.length + 3) / 2)).length ≤ n := by
        simp [List.length_drop]; omega
      rw [ih _ h1, ih _ h2, mergeFuel_eq]
      · congr 2
      · rw [List.length_mergeSort, List.length_mergeSort]
        simp [List.length_take, List.length_drop]
        omega

theorem mergeSort_eval {α : Type} (le : α → α → Bool) (l : List α) :
    l.mergeSort le = sortFuel le l.length l :=
  (sortFuel_eq le l.length l (Nat.le_refl _)).symm

/-- Evaluation form of `derive`, used to settle concrete instances with
`decide`. -/
theorem derive_eval (R : List Movie) (C : FilterCriteria) (S : String) :
    derive R C S =
      sortFuel (fun a b => decide (movieCompare S a b ≤ 0))
        (filteredMovies R C.selectedGenreIds C.minimumRating).length
        (filteredMovies R C.selectedGenreIds C.minimumRating) := by
  unfold derive jsSort
  rw [mergeSort_eval]

/-! ### Order properties of the comparators -/

theorem cmpChars_swap : ∀ a b, cmpChars b a = (cmpChars a b).swap := by
  intro a
  induction a with
  | nil => intro b; cases b <;> simp [cmpChars, Ordering.swap]
  | cons x xs ih =>
    intro b
    cases b with
    | nil => simp [cmpChars, Ordering.swap]
    | cons y ys =>
      simp only [cmpChars]
      rcases lt_trichotomy x y with h | h | h
      · simp [h, not_lt.mpr h.le, h.ne.symm, lt_irrefl, Ordering.swap]
      · subst h; simp [lt_irrefl, ih, Ordering.swap]
      · simp [h, not_lt.mpr h.le, h.ne.symm, lt_irrefl, Ordering.swap]

theorem cmpChars_not_gt_trans :
    ∀ a b c, cmpChars a b ≠ .gt → cmpChars b c ≠ .gt → cmpChars a c ≠ .gt := by
  intro a
  induction a with
  | nil => intro b c _ _; cases c <;> simp [cmpChars]
  | cons x xs ih =>
    intro b c h1 h2
    cases b with
    | nil => simp [cmpChars] at h1
    | cons y ys =>
      cases c with
      | nil => simp [cmpChars] at h2
      | cons z zs =>
        simp only [cmpChars] at h1 h2 ⊢
        rcases lt_trichotomy x y with hxy | hxy | hxy
        · rcases lt_trichotomy y z with hyz | hyz | hyz
          · have : x < z := lt_trans hxy hyz
            simp [this]
          · subst hyz; simp [hxy]
          · simp [hyz, not_lt.mpr hyz.le, hyz.ne.symm] at h2
        · subst hxy
          rcases lt_trichotomy x z with hxz | hxz | hxz
          · simp [hxz]
          · subst hxz; simp [lt_irrefl] at h1 h2 ⊢; exact ih _ _ h1 h2
          · simp [hxz, not_lt.mpr hxz.le] at h2
        · simp [hxy, not_lt.mpr hxy.le] at h1

theorem localeCompare_neg (a b : String) :
    localeCompare b a = -localeCompare a b := by
  unfold localeCompare
  rw [cmpChars_swap]
  cases cmpChars a.data b.data <;> simp [Ordering.swap]

theorem localeCompare_le_zero (a b : String) :
    localeCompare a b ≤ 0 ↔ cmpChars a.data b.data ≠ .gt := by
  unfold localeCompare
  cases h : cmpChars a.data b.data <;> simp

theorem dateCompare_neg (a b : Movie) : dateCompare b a = -dateCompare a b := by
  unfold dateCompare
  cases h1 : parseDateKey a.release_date <;>
    cases h2 : parseDateKey b.release_date <;> simp

theorem movieCompare_neg (S : String) (a b : Movie) :
    movieCompare S b a = -movieCompare S a b := by
  unfold movieCompare
  split_ifs <;>
    first
      | rw [localeCompare_neg]; push_cast; ring
      | rw [dateCompare_neg]
      | ring

theorem movieCompare_total (S : String) (a b : Movie) :
    (decide (movieCompare S a b ≤ 0) || decide (movieCompare S b a ≤ 0)) = true := by
  rcases le_total (movieCompare S a b) 0 with h | h
  · simp [h]
  · have : movieCompare S b a ≤ 0 := by rw [movieCompare_neg]; linarith
    simp [this]

/-- Restricted idempotence of `mergeSort`: if the comparison is total, and
transitive on elements satisfying `P`, then re-sorting the sorted version of
a list of `P`-elements changes nothing.  (Totality alone does not suffice:
the `NaN`-date comparator is total but not transitive, and re-sorting can
then reorder — see the counterexample below.) -/
theorem mergeSort_idem_on {α : Type} (P : α → Prop) (le : α → α → Bool)
    (htrans : ∀ a b c, P a → P b → P c → le a b = true → le b c = true →
      le a c = true)
    (htotal : ∀ a b, (le a b || le b a) = true)
    (l : List α) (hl : ∀ x ∈ l, P x) :
    (l.mergeSort le).mergeSort le = l.mergeSort le := by
  let le2 : {x // P x} → {x // P x} → Bool := fun a b => le a.1 b.1
  have htrans2 : ∀ a b c : {x // P x}, le2 a b → le2 b c → le2 a c :=
    fun a b c hab hbc => htrans _ _ _ a.2 b.2 c.2 hab hbc
  have htotal2 : ∀ a b : {x // P x}, (le2 a b || le2 b a) = true :=
    fun a b => htotal a.1 b.1
  have hmap : ∀ m : List {x // P x},
      (m.map Subtype.val).mergeSort le = (m.mergeSort le2).map Subtype.val :=
    fun m =>
      (@List.map_mergeSort _ _ le2 le Subtype.val m (fun _ _ _ _ => rfl)).symm
  have hattach : (l.attachWith P hl).map Subtype.val = l :=
    List.attachWith_map_subtype_val l hl
  have key : l.mergeSort le = ((l.attachWith P hl).mergeSort le2).map Subtype.val := by
    rw [← hmap, hattach]
  rw [key, hmap, List.mergeSort_of_sorted (List.sorted_mergeSort htrans2 htotal2 _)]

theorem movieCompare_titleAsc (a b : Movie) :
    movieCompare "title.asc" a b = localeCompare a.title b.title := rfl

theorem movieCompare_titleDesc (a b : Movie) :
    movieCompare "title.desc" a b = localeCompare b.title a.title := rfl

theorem movieCompare_ratingDesc (a b : Movie) :
    movieCompare "rating.desc" a b = b.vote_average - a.vote_average := rfl

theorem movieCompare_ratingAsc (a b : Movie) :
    movieCompare "rating.asc" a b = a.vote_average - b.vote_average := rfl

theorem movieCompare_dateDesc (a b : Movie) :
    movieCompare "release_date.desc" a b = dateCompare b a := rfl

theorem movieCompare_dateAsc (a b : Movie) :
    movieCompare "release_date.asc" a b = dateCompare a b := rfl

theorem movieCompare_default (S : String) (a b : Movie)
    (h1 : S ≠ "title.asc") (h2 : S ≠ "title.desc") (h3 : S ≠ "rating.desc")
    (h4 : S ≠ "rating.asc") (h5 : S ≠ "release_date.desc")
    (h6 : S ≠ "release_date.asc") :
    movieCompare S a b = b.vote_average - a.vote_average := by
  unfold movieCompare
  rw [if_neg h1, if_neg h2, if_neg h3, if_neg h4, if_neg h5, if_neg h6]

/-- Filtering a sorted already-filtered list is the identity: every element
still satisfies the predicate. -/
theorem filter_mergeSort_absorb {α : Type} (p : α → Bool) (le : α → α → Bool)
    (l : List α) :
    ((l.filter p).mergeSort le).filter p = (l.filter p).mergeSort le := by
  apply List.filter_eq_self.mpr
  intro a ha
  exact List.of_mem_filter (List.mem_mergeSort.mp ha)

theorem filteredMovies_absorb (R : List Movie) (G : List Int) (m : ℚ)
    (cmp : Movie → Movie → ℚ) :
    filteredMovies (jsSort cmp (filteredMovies R G m)) G m
      = jsSort cmp (filteredMovies R G m) := by
  unfold filteredMovies jsSort
  exact filter_mergeSort_absorb _ _ _

theorem mem_of_mem_filteredMovies {R : List Movie} {G : List Int} {m : ℚ}
    {mv : Movie} (h : mv ∈ filteredMovies R G m) : mv ∈ R :=
  List.mem_of_mem_filter h

/-- Re-sorting a sorted list is the identity for every sort option, provided
that under the two release-date options every element's date parses (so that
the `NaN`-ties cannot break transitivity). -/
theorem jsSort_idem (S : String) (l : List Movie)
    (hdate : (S = "release_date.asc" ∨ S = "release_date.desc") →
      ∀ mv ∈ l, (parseDateKey mv.release_date).isSome) :
    jsSort (movieCompare S) (jsSort (movieCompare S) l)
      = jsSort (movieCompare S) l := by
  unfold jsSort
  by_cases h1 : S = "title.asc"
  · subst h1
    refine mergeSort_idem_on (fun _ => True) _ ?_
      (fun a b => movieCompare_total _ a b) l (fun _ _ => trivial)
    intro a b c _ _ _ hab hbc
    simp only [movieCompare_titleAsc, decide_eq_true_eq, Int.cast_nonpos,
      localeCompare_le_zero] at hab hbc ⊢
    exact cmpChars_not_gt_trans _ _ _ hab hbc
  by_cases h2 : S = "title.desc"
  · subst h2
    refine mergeSort_idem_on (fun _ => True) _ ?_
      (fun a b => movieCompare_total _ a b) l (fun _ _ => trivial)
    intro a b c _ _ _ hab hbc
    simp only [movieCompare_titleDesc, decide_eq_true_eq, Int.cast_nonpos,
      localeCompare_le_zero] at hab hbc ⊢
    exact cmpChars_not_gt_trans _ _ _ hbc hab
  by_cases h3 : S = "rating.desc"
  · subst h3
    refine mergeSort_idem_on (fun _ => True) _ ?_
      (fun a b => movieCompare_total _ a b) l (fun _ _ => trivial)
    intro a b c _ _ _ hab hbc
    simp only [movieCompare_ratingDesc, decide_eq_true_eq] at hab hbc ⊢
    linarith
  by_cases h4 : S = "rating.asc"
  · subst h4
    refine mergeSort_idem_on (fun _ => True) _ ?_
      (fun a b => movieCompare_total _ a b) l (fun _ _ => trivial)
    intro a b c _ _ _ hab hbc
    simp only [movieCompare_ratingAsc, decide_eq_true_eq] at hab hbc ⊢
    linarith
  by_cases h5 : S = "release_date.asc"
  · subst h5
    refine mergeSort_idem_on (fun mv => (parseDateKey mv.release_date).isSome)
      _ ?_ (fun a b => movieCompare_total _ a b) l (hdate (Or.inl rfl))
    intro a b c ha hb hc hab hbc
    obtain ⟨ka, hka⟩ := Option.isSome_iff_exists.mp ha
    obtain ⟨kb, hkb⟩ := Option.isSome_iff_exists.mp hb
    obtain ⟨kc, hkc⟩ := Option.isSome_iff_exists.mp hc
    simp only [movieCompare_dateAsc, decide_eq_true_eq, dateCompare,
      hka, hkb, hkc] at hab hbc ⊢
    push_cast at hab hbc ⊢
    linarith
  by_cases h6 : S = "release_date.desc"
  · subst h6
    refine mergeSort_idem_on (fun mv => (parseDateKey mv.release_date).isSome)
      _ ?_ (fun a b => movieCompare_total _ a b) l (hdate (Or.inr rfl))
    intro a b c ha hb hc hab hbc
    obtain ⟨ka, hka⟩ := Option.isSome_iff_exists.mp ha
    obtain ⟨kb, hkb⟩ := Option.isSome_iff_exists.mp hb
    obtain ⟨kc, hkc⟩ := Option.isSome_iff_exists.mp hc
    simp only [movieCompare_dateDesc, decide_eq_true_eq, dateCompare,
      hka, hkb, hkc] at hab hbc ⊢
    push_cast at hab hbc ⊢
    linarith
  · refine mergeSort_idem_on (fun _ => True) _ ?_
      (fun a b => movieCompare_total _ a b) l (fun _ _ => trivial)
    intro a b c _ _ _ hab hbc
    rw [movieCompare_default S _ _ h1 h2 h3 h4 h6 h5, decide_eq_true_eq]
      at hab hbc ⊢
    linarith

/-- Every controller event preserves `1 ≤ currentPage ∧ 1 ≤ totalPages`. -/
theorem applyEvent_pagination (s : ListState) (e : ListEvent)
    (h : 1 ≤ s.currentPage ∧ 1 ≤ s.totalPages) :
    1 ≤ (applyEvent s e).currentPage ∧ 1 ≤ (applyEvent s e).totalPages := by
  cases e with
  | search q => simp only [applyEvent, handleSearch]; exact ⟨le_refl 1, h.2⟩
  | genreClick g => exact h
  | toggleFilter => exact h
  | clearFilterSelection => exact h
  | goHome => simp only [applyEvent, handleGoHome]; exact ⟨le_refl 1, h.2⟩
  | setSort o => exact h
  | genresLoaded gs => exact h
  | genresFailed => exact h
  | fetchStart => exact h
  | fetchSuccess d =>
    simp only [applyEvent, applyFetchSuccess]
    exact ⟨h.1, le_max_left 1 _⟩
  | fetchFailure =>
    simp only [applyEvent, applyFetchFailure]
    exact ⟨h.1, le_refl 1⟩
  | prevPage =>
    simp only [applyEvent, goToPreviousPage]
    exact ⟨le_max_left 1 _, h.2⟩
  | nextPage =>
    simp only [applyEvent, goToNextPage]
    refine ⟨?_, h.2⟩
    split <;> omega

theorem runEvents_pagination (s : ListState)
    (h : 1 ≤ s.currentPage ∧ 1 ≤ s.totalPages) (events : List ListEvent) :
    1 ≤ (runEvents s events).currentPage
    ∧ 1 ≤ (runEvents s events).totalPages := by
  induction events generalizing s with
  | nil => exact h
  | cons e es ih => exact ih _ (applyEvent_pagination s e h)

/-! ### Claims -/

/-- C1: for every raw item list, selected-genre set, minimum rating and sort
key, `derive` is a permutation of exactly the subset of the raw list matching
the filter predicate — an item is kept iff (no genre is selected OR every
selected genre id is contained in the item's genre ids) AND its average
rating is at least the minimum; nothing else appears and nothing matching is
dropped. -/
theorem c1_derive_perm_filter (R : List Movie) (G : List Int) (m : ℚ)
    (S : String) :
    List.Perm (derive R ⟨G, m⟩ S)
      (R.filter (fun item =>
        (decide (G = [])
          || G.all (fun genreId => item.genre_ids.contains genreId))
        && decide (m ≤ item.vote_average))) := by
  unfold derive jsSort
  refine (List.mergeSort_perm _ _).trans ?_
  have heq : filteredMovies R G m
      = R.filter (fun item =>
          (decide (G = [])
            || G.all (fun genreId => item.genre_ids.contains genreId))
          && decide (m ≤ item.vote_average)) := by
    unfold filteredMovies
    apply List.filter_congr
    intro x _
    simp only [List.length_eq_zero, ge_iff_le]
  rw [heq]

/-- C2: stepping is a no-op when the identifier sequence is empty or the
current id does not occur in it; otherwise, with `i` the (first) index of the
current id and `n` the length, `next` steps to index `(i+1) mod n` and `prev`
to `(i-1+n) mod n` (written `(i+n-1) mod n` over `Nat`), wrapping circularly
at both ends. -/
theorem c2_stepper (c : Int) (s : List Int) (d : Direction) :
    ((s = [] ∨ c ∉ s) → handleNavigation c s d = none)
    ∧ (c ∈ s →
        handleNavigation c s Direction.next
          = s[(s.indexOf c + 1) % s.length]?
        ∧ handleNavigation c s Direction.prev
          = s[(s.indexOf c + s.length - 1) % s.length]?) := by
  constructor
  · rintro (rfl | hc)
    · simp [handleNavigation]
    · simp [handleNavigation, jsIndexOf, hc]
  · intro hc
    have hlen : s.length ≠ 0 := by
      intro h0
      rw [List.length_eq_zero] at h0
      subst h0
      exact absurd hc (List.not_mem_nil c)
    have hidx : s.indexOf c < s.length := List.indexOf_lt_length.mpr hc
    have hne : ((s.indexOf c : Int)) ≠ -1 := by omega
    constructor
    · show handleNavigation c s Direction.next = _
      unfold handleNavigation jsIndexOf
      rw [if_neg hlen, if_pos hc, if_neg hne]
      have hmod : (((s.indexOf c : Int) + 1) % (s.length : Int)).toNat
          = (s.indexOf c + 1) % s.length := by
        have h1 : ((s.indexOf c : Int) + 1) % (s.length : Int)
            = (((s.indexOf c + 1) % s.length : Nat) : Int) := by
          push_cast
          rfl
        rw [h1, Int.toNat_natCast]
      show s[(((s.indexOf c : Int) + 1) % (s.length : Int)).toNat]? = _
      rw [hmod]
    · show handleNavigation c s Direction.prev = _
      unfold handleNavigation jsIndexOf
      rw [if_neg hlen, if_pos hc, if_neg hne]
      have hmod : (((s.indexOf c : Int) - 1 + (s.length : Int)) % (s.length : Int)).toNat
          = (s.indexOf c + s.length - 1) % s.length := by
        have h0 : (s.indexOf c : Int) - 1 + (s.length : Int)
            = ((s.indexOf c + s.length - 1 : Nat) : Int) := by
          omega
        have h1 : ((s.indexOf c : Int) - 1 + (s.length : Int)) % (s.length : Int)
            = (((s.indexOf c + s.length - 1) % s.length : Nat) : Int) := by
          rw [h0]
          push_cast
          rfl
        rw [h1, Int.toNat_natCast]
      show s[(((s.indexOf c : Int) - 1 + (s.length : Int)) % (s.length : Int)).toNat]? = _
      rw [hmod]

/-- C2 witness: in the sequence `[5, 9, 2]` stepping next from 2 wraps to 5,
stepping prev from 5 wraps to 2, and stepping from the absent id 99 is a
no-op. -/
theorem c2_stepper_witness :
    handleNavigation 2 [5, 9, 2] Direction.next = some 5
    ∧ handleNavigation 5 [5, 9, 2] Direction.prev = some 2
    ∧ handleNavigation 99 [5, 9, 2] Direction.next = none := by
  refine ⟨?_, ?_, ?_⟩
  · have h := (c2_stepper 2 [5, 9, 2] Direction.next).2 (by decide)
    rw [h.1]
    decide
  · have h := (c2_stepper 5 [5, 9, 2] Direction.prev).2 (by decide)
    rw [h.2]
    decide
  · exact (c2_stepper 99 [5, 9, 2] Direction.next).1 (Or.inr (by decide))

/-- C3 (failing run): `fetchMovies` keys nothing and applies every resolved
response unconditionally, so when the fetch for page 1 and then the fetch for
page 2 are issued and page 1's response arrives after page 2's, the final
state shows page 1's items and total-page count — the stale response
overwrites the newer one, contrary to the claim. -/
theorem c3_stale_response_overwrites :
    (runEvents initialListState
        [ListEvent.fetchStart, ListEvent.fetchStart,
         ListEvent.fetchSuccess pageTwoResponse,
         ListEvent.fetchSuccess pageOneResponse]).movies
      = [dateMovie 11 "2001-01-01"]
    ∧ (runEvents initialListState
        [ListEvent.fetchStart, ListEvent.fetchStart,
         ListEvent.fetchSuccess pageTwoResponse,
         ListEvent.fetchSuccess pageOneResponse]).totalPages = 7
    ∧ ([dateMovie 11 "2001-01-01"] : List Movie) ≠ [dateMovie 22 "2002-01-01"]
    ∧ (7 : Int) ≠ 9 := by
  refine ⟨rfl, rfl, by decide, by decide⟩

/-- C4: at detail-view mount the resolved sequence is the navigation-state
sequence when that is present and non-empty; when the navigation state is
absent it is the parse of the durably stored slot; and an absent, unparsable,
or non-array slot yields the empty sequence.  All functions involved are
total — no read failure raises. -/
theorem c4_resolve (nav : Option (List Int)) (stored : Option String) :
    (∀ ids, nav = some ids → ids.length > 0 → resolveMovieIds nav stored = ids)
    ∧ (nav = none → resolveMovieIds nav stored = initMovieIds stored)
    ∧ (stored = none → initMovieIds stored = [])
    ∧ (∀ str, stored = some str → parseIntArray str = none →
        initMovieIds stored = [])
    ∧ (∀ str l, stored = some str → parseIntArray str = some l →
        initMovieIds stored = l) := by
  refine ⟨?_, ?_, ?_, ?_, ?_⟩
  · intro ids hnav hlen
    subst hnav
    simp [resolveMovieIds, hlen]
  · intro hnav
    subst hnav
    rfl
  · intro hst
    subst hst
    rfl
  · intro str hst hparse
    subst hst
    simp [initMovieIds, hparse]
  · intro str l hst hparse
    subst hst
    simp [initMovieIds, hparse]

/-- C4 witness: concrete resolutions — a non-empty navigation sequence wins;
with no navigation state the stored JSON array is returned; an absent slot,
a corrupt slot and a non-array slot all resolve to the empty sequence. -/
theorem c4_resolve_witness :
    resolveMovieIds (some [4, 5]) (some "[1,2,3]") = [4, 5]
    ∧ resolveMovieIds none (some "[1,2,3]") = [1, 2, 3]
    ∧ resolveMovieIds none none = []
    ∧ resolveMovieIds none (some "oops") = []
    ∧ resolveMovieIds none (some "5") = [] := by
  refine ⟨?_, ?_, ?_, ?_, ?_⟩
  · exact (c4_resolve (some [4, 5]) (some "[1,2,3]")).1 [4, 5] rfl (by decide)
  · rw [(c4_resolve none (some "[1,2,3]")).2.1 rfl]
    exact (c4_resolve none (some "[1,2,3]")).2.2.2.2 "[1,2,3]" [1, 2, 3] rfl
      (by decide)
  · rw [(c4_resolve none none).2.1 rfl]
    exact (c4_resolve none none).2.2.1 rfl
  · rw [(c4_resolve none (some "oops")).2.1 rfl]
    exact (c4_resolve none (some "oops")).2.2.2.1 "oops" rfl (by decide)
  · rw [(c4_resolve none (some "5")).2.1 rfl]
    exact (c4_resolve none (some "5")).2.2.2.1 "5" rfl (by decide)

/-- C5: capturing a non-empty sequence writes its JSON encoding to the
durable slot; a failed write is swallowed and leaves the slot (and all other
state) unchanged; and after capturing `[1,2,3]` a fresh mount with no
navigation state (a reload) resolves to `[1,2,3]`. -/
theorem c5_capture (ids : List Int) (stored : Option String) :
    (ids ≠ [] → captureStore ids true stored = some (jsonStringifyIds ids))
    ∧ captureStore ids false stored = stored
    ∧ resolveMovieIds none (captureStore [1, 2, 3] true stored) = [1, 2, 3] := by
  refine ⟨?_, ?_, ?_⟩
  · intro h
    have hlen : ids.length > 0 := List.length_pos.mpr h
    simp [captureStore, hlen]
  · unfold captureStore
    split <;> rfl
  · have h : captureStore [1, 2, 3] true stored = some (jsonStringifyIds [1, 2, 3]) := rfl
    rw [h]
    decide

/-- C5 witness: capturing `[1,2,3]` writes the literal `"[1,2,3]"`; a failed
write leaves the previous slot value; a reload after a successful capture
resolves to `[1,2,3]`. -/
theorem c5_capture_witness :
    captureStore [1, 2, 3] true none = some "[1,2,3]"
    ∧ captureStore [1, 2, 3] false (some "old") = some "old"
    ∧ resolveMovieIds none (captureStore [1, 2, 3] true none) = [1, 2, 3] := by
  refine ⟨?_, ?_, ?_⟩
  · rw [(c5_capture [1, 2, 3] none).1 (by decide)]
    decide
  · exact (c5_capture [1, 2, 3] (some "old")).2.1
  · exact (c5_capture [1, 2, 3] none).2.2

/-- C6: a failed fetch puts the controller in the Failed state — the item
list is cleared, the total-page count becomes 1, the error is recorded (the
console-error count grows), loading ends — and every other state component is
untouched.  `applyFetchFailure` is a total function: the `catch` absorbs the
rejection, so no exception crosses the controller boundary. -/
theorem c6_failed_fetch (s : ListState) :
    (applyFetchFailure s).movies = []
    ∧ (applyFetchFailure s).totalPages = 1
    ∧ (applyFetchFailure s).consoleErrorCount = s.consoleErrorCount + 1
    ∧ (applyFetchFailure s).isLoading = false
    ∧ (applyFetchFailure s).query = s.query
    ∧ (applyFetchFailure s).currentPage = s.currentPage
    ∧ (applyFetchFailure s).selectedGenres = s.selectedGenres
    ∧ (applyFetchFailure s).sortOption = s.sortOption
    ∧ (applyFetchFailure s).genres = s.genres
    ∧ (applyFetchFailure s).isFilterOpen = s.isFilterOpen :=
  ⟨rfl, rfl, rfl, rfl, rfl, rfl, rfl, rfl, rfl, rfl⟩

/-- C7: the dispatched request is the search endpoint with the trimmed query
and the page exactly when the trimmed search text is longer than 1, and the
popular endpoint with the page otherwise; and every search change resets the
current page to 1 while storing the new query. -/
theorem c7_dispatch (page : Int) (searchTerm : String) (s : ListState)
    (nextQuery : String) :
    (fetchRequest page searchTerm
        = ApiRequest.search (jsTrim searchTerm) page
      ↔ (jsTrim searchTerm).length > 1)
    ∧ (fetchRequest page searchTerm = ApiRequest.popular page
      ↔ ¬(jsTrim searchTerm).length > 1)
    ∧ (handleSearch s nextQuery).currentPage = 1
    ∧ (handleSearch s nextQuery).query = nextQuery := by
  refine ⟨?_, ?_, rfl, rfl⟩
  · unfold fetchRequest
    by_cases h : (jsTrim searchTerm).length > 1 <;> simp [h]
  · unfold fetchRequest
    by_cases h : (jsTrim searchTerm).length > 1 <;> simp [h]

/-- Pairs in which either release date fails to parse compare as 0: the
`NaN` subtraction is coerced to `+0` by `SortCompare`. -/
theorem dateCompare_none {a b : Movie}
    (h : parseDateKey a.release_date = none
      ∨ parseDateKey b.release_date = none) :
    dateCompare a b = 0 := by
  unfold dateCompare
  cases ha : parseDateKey a.release_date <;>
    cases hb : parseDateKey b.release_date <;> simp_all

/-- C8 counterexample: with a parseable-date movie listed before an
empty-date movie, release-date-ascending `derive` leaves the pair in place —
the unparseable-date item does NOT sort before the parseable one, so
empty/unparseable dates are not treated as the minimum date. -/
theorem c8_counterexample :
    parseDateKey unparseableMovie.release_date = none
    ∧ (parseDateKey parseableMovie.release_date).isSome = true
    ∧ derive [parseableMovie, unparseableMovie] ⟨[], 0⟩ "release_date.asc"
        = [parseableMovie, unparseableMovie]
    ∧ derive [parseableMovie, unparseableMovie] ⟨[], 0⟩ "release_date.asc"
        ≠ [unparseableMovie, parseableMovie] := by
  refine ⟨by decide, by decide, ?_, ?_⟩
  · rw [derive_eval]
    decide
  · rw [derive_eval]
    decide

/-- C8 amended: under the release-date sort keys the comparator is the
chronological difference of the parsed dates when both dates parse; when
either item's release date is empty or unparseable the comparator returns 0
(its `NaN` value is coerced to `+0`), so such items are tied with every item
and keep their input-relative position under the stable sort instead of
sorting as the minimum date; and when every item's date parses the ascending
output is chronologically sorted. -/
theorem c8_amended_date_sort :
    (∀ (a b : Movie) (ka kb : Int),
        parseDateKey a.release_date = some ka →
        parseDateKey b.release_date = some kb →
        movieCompare "release_date.asc" a b = ((ka - kb : Int) : ℚ)
        ∧ movieCompare "release_date.desc" a b = ((kb - ka : Int) : ℚ))
    ∧ (∀ a b : Movie,
        parseDateKey a.release_date = none
          ∨ parseDateKey b.release_date = none →
        movieCompare "release_date.asc" a b = 0
        ∧ movieCompare "release_date.desc" a b = 0)
    ∧ (∀ l : List Movie,
        (∀ mv ∈ l, (parseDateKey mv.release_date).isSome) →
        List.Pairwise
          (fun x y : Movie => movieCompare "release_date.asc" x y ≤ 0)
          (jsSort (movieCompare "release_date.asc") l)) := by
  refine ⟨?_, ?_, ?_⟩
  · intro a b ka kb ha hb
    constructor
    · rw [movieCompare_dateAsc]
      unfold dateCompare
      rw [ha, hb]
    · rw [movieCompare_dateDesc]
      unfold dateCompare
      rw [hb, ha]
  · intro a b h
    constructor
    · rw [movieCompare_dateAsc, dateCompare_none h]
    · rw [movieCompare_dateDesc, dateCompare_none h.symm]
  · intro l hl
    have hval : (l.attachWith _ hl).map Subtype.val = l :=
      List.attachWith_map_subtype_val l hl
    have hmap : jsSort (movieCompare "release_date.asc") l
        = ((l.attachWith _ hl).mergeSort
            (fun a b : {mv : Movie // (parseDateKey mv.release_date).isSome} =>
              decide (movieCompare "release_date.asc" a.1 b.1 ≤ 0))).map
            Subtype.val := by
      conv_lhs => rw [← hval]
      exact (@List.map_mergeSort _ _ _
        (fun a b => decide (movieCompare "release_date.asc" a b ≤ 0))
        Subtype.val _ (fun _ _ _ _ => rfl)).symm
    rw [hmap]
    have htrans2 : ∀ a b c : {mv : Movie // (parseDateKey mv.release_date).isSome},
        decide (movieCompare "release_date.asc" a.1 b.1 ≤ 0) = true →
        decide (movieCompare "release_date.asc" b.1 c.1 ≤ 0) = true →
        decide (movieCompare "release_date.asc" a.1 c.1 ≤ 0) = true := by
      intro a b c hab hbc
      obtain ⟨ka, hka⟩ := Option.isSome_iff_exists.mp a.2
      obtain ⟨kb, hkb⟩ := Option.isSome_iff_exists.mp b.2
      obtain ⟨kc, hkc⟩ := Option.isSome_iff_exists.mp c.2
      simp only [movieCompare_dateAsc, decide_eq_true_eq, dateCompare,
        hka, hkb, hkc] at hab hbc ⊢
      push_cast at hab hbc ⊢
      linarith
    have hsorted := List.sorted_mergeSort htrans2
      (fun a b => movieCompare_total "release_date.asc" a.1 b.1)
      (l.attachWith _ hl)
    refine List.Pairwise.map Subtype.val ?_ hsorted
    intro a b hab
    exact of_decide_eq_true hab

/-- C8 amended witness: two parseable equal dates compare as 0, and any pair
involving the empty date compares as 0. -/
theorem c8_amended_witness :
    movieCompare "release_date.asc" parseableMovie parseableMovie = 0
    ∧ movieCompare "release_date.asc" parseableMovie unparseableMovie = 0 := by
  constructor
  · have h := (c8_amended_date_sort.1 parseableMovie parseableMovie
      20200105 20200105 (by decide) (by decide)).1
    rw [h]
    norm_num
  · exact (c8_amended_date_sort.2.1 parseableMovie unparseableMovie
      (Or.inr (by decide))).1

/-- C9 counterexample: on six movies — one later date, four equal earlier
dates, one empty date — release-date-ascending `derive` is not idempotent:
re-deriving its own output changes the order (the `NaN` ties make the
comparator non-transitive). -/
theorem c9_counterexample :
    derive (derive idemInput ⟨[], 0⟩ "release_date.asc") ⟨[], 0⟩
        "release_date.asc"
      ≠ derive idemInput ⟨[], 0⟩ "release_date.asc" := by
  simp only [derive_eval]
  decide

/-- C9 amended: `derive` is idempotent for every raw list, criteria and sort
key, provided that under the two release-date sort keys every raw item's
release date parses.  (With an unparseable date present the release-date
comparator has `NaN` ties and is not transitive, and re-deriving can reorder
— see the counterexample.) -/
theorem c9_amended_idempotent (R : List Movie) (C : FilterCriteria)
    (S : String)
    (hdate : (S = "release_date.asc" ∨ S = "release_date.desc") →
      ∀ mv ∈ R, (parseDateKey mv.release_date).isSome) :
    derive (derive R C S) C S = derive R C S := by
  unfold derive
  rw [filteredMovies_absorb]
  exact jsSort_idem S _
    (fun hS mv hmv => hdate hS mv (mem_of_mem_filteredMovies hmv))

/-- C9 amended witness: idempotence at the six-movie list under the
rating-descending key. -/
theorem c9_amended_witness :
    derive (derive idemInput ⟨[], 0⟩ "rating.desc") ⟨[], 0⟩ "rating.desc"
      = derive idemInput ⟨[], 0⟩ "rating.desc" :=
  c9_amended_idempotent idemInput ⟨[], 0⟩ "rating.desc" (by decide)

/-- C10: in every state reachable from the initial state by any event
sequence, `currentPage ≥ 1` and `totalPages ≥ 1`; a successful fetch clamps
the server-reported total-page count to at least 1 (even when the server
reports 0, a negative number, or omits the field), a failed fetch sets it to
1, `goToPreviousPage` at page 1 is a no-op, and `goToNextPage` at
`currentPage = totalPages` is a no-op. -/
theorem c10_pagination :
    (∀ events : List ListEvent,
        1 ≤ (runEvents initialListState events).currentPage
        ∧ 1 ≤ (runEvents initialListState events).totalPages)
    ∧ (∀ (s : ListState) (data : MovieListResponse),
        1 ≤ (applyFetchSuccess s data).totalPages)
    ∧ (∀ s : ListState, (applyFetchFailure s).totalPages = 1)
    ∧ (∀ s : ListState, s.currentPage = 1 → goToPreviousPage s = s)
    ∧ (∀ s : ListState, s.currentPage = s.totalPages → goToNextPage s = s) := by
  refine ⟨?_, ?_, ?_, ?_, ?_⟩
  · intro events
    exact runEvents_pagination initialListState ⟨le_refl 1, le_refl 1⟩ events
  · intro s data
    exact le_max_left 1 _
  · intro s
    rfl
  · intro s h
    unfold goToPreviousPage
    have hmax : max 1 (s.currentPage - 1) = s.currentPage := by omega
    rw [hmax]
  · intro s h
    unfold goToNextPage
    rw [if_neg (by omega : ¬s.currentPage < s.totalPages)]

/-- C10 witness: the invariant at the empty event sequence, and both clamps
at the initial state (page 1 of 1). -/
theorem c10_pagination_witness :
    (1 ≤ (runEvents initialListState []).currentPage
      ∧ 1 ≤ (runEvents initialListState []).totalPages)
    ∧ goToPreviousPage initialListState = initialListState
    ∧ goToNextPage initialListState = initialListState :=
  ⟨c10_pagination.1 [],
   c10_pagination.2.2.2.1 initialListState rfl,
   c10_pagination.2.2.2.2 initialListState rfl⟩

end MovieCatalog
